import Mathlib

/-!
# Verification of the AscultiCor ingestion / inference service

Shallow embedding of the Python sources under `inference/app/` (MQTT
handler, session buffers, demo-mode inference engine, persistence
gateway call structure), with theorems settling the frozen claims about
the natural-language specification.

Conventions of the embedding:

* byte strings are `List Nat` with every element `< 256`;
* floating-point signal samples are modelled as rationals `ℚ` (the
  operations the claims touch — division and multiplication by the
  power of two `32768`, comparisons against decimal thresholds — are
  exact on the float values actually produced, so the rational model is
  faithful on the inputs of interest);
* numpy's `astype(np.int16)` float→int conversion is modelled as
  truncation toward zero followed by wraparound modulo `2^16`
  (the C-cast behaviour the library exhibits);
* the persistence gateway and the model runtime are external
  collaborators: their outcomes (upload success, inference raising or
  not, the model's label) are parameters of the pipeline functions, and
  the pipeline's persistence side effects are recorded as an explicit
  event trace.
-/

namespace AscultiCor

/-! ## Byte codec

`SessionBuffer.reconstruct_signal` (mqtt_handler.py:74-90), int16
branch: `np.frombuffer(full_data, dtype=np.int16)` then
`signal.astype(np.float32) / 32768.0`.

Finalization re-encode (mqtt_handler.py:380, 484):
`(audio * 32768).astype(np.int16).tobytes()`.
-/

/-- Interpret a `Nat` in `[0, 65536)` as a two's-complement signed
16-bit integer, as `np.frombuffer(..., dtype=np.int16)` does. -/
def toSigned16 (v : Nat) : Int :=
  if v < 32768 then (v : Int) else (v : Int) - 65536

/-- Group a byte list into consecutive (low, high) pairs; a trailing
odd byte is dropped (`np.frombuffer` would raise on it; the claims that
use this restrict to even length). -/
def bytePairs : List Nat → List (Nat × Nat)
  | b0 :: b1 :: rest => (b0, b1) :: bytePairs rest
  | _ => []

/-- Little-endian int16 decode of a byte string. -/
def decode_int16le (bs : List Nat) : List Int :=
  (bytePairs bs).map (fun p => toSigned16 (p.1 + 256 * p.2))

/-- The int16 branch of `SessionBuffer.reconstruct_signal`: decode the
concatenated bytes as int16-LE and normalize by `/ 32768.0`
(mqtt_handler.py:80-84). Division of an int16 value by `2^15` is exact
in float32, so the rational value is the float value. -/
def reconstructInt16 (bs : List Nat) : List ℚ :=
  (decode_int16le bs).map (fun v : Int => (v : ℚ) / 32768)

/-- Truncation toward zero, the rounding mode of a C float→int cast. -/
def truncRat (q : ℚ) : Int :=
  if 0 ≤ q then ⌊q⌋ else ⌈q⌉

/-- Wrap an integer into `[-32768, 32767]` modulo `2^16`: the
out-of-range behaviour of numpy's `astype(np.int16)`. -/
def wrapInt16 (z : Int) : Int :=
  (z + 32768) % 65536 - 32768

/-- One sample of the finalization re-encode `(x * 32768).astype(np.int16)`
(mqtt_handler.py:380, 484): scale by `32768`, truncate toward zero,
wrap modulo `2^16`. Note: no rounding to nearest and no saturation. -/
def encodeSample (x : ℚ) : Int :=
  wrapInt16 (truncRat (x * 32768))

/-- `tobytes()` of one int16 value: little-endian two's complement. -/
def int16Bytes (v : Int) : List Nat :=
  let u := (v % 65536).toNat
  [u % 256, u / 256]

/-- The full finalization re-encode of a float signal to int16-LE bytes
(the bytes that are checksummed and uploaded). -/
def encode_int16le (xs : List ℚ) : List Nat :=
  (xs.map (fun x => int16Bytes (encodeSample x))).flatten

/-! ## Session buffer (mqtt_handler.py:24-124) -/

/-- `'int16' in self.format or 's16' in self.format`
(Python substring test). -/
def containsStr (s pat : String) : Bool :=
  decide (pat.toList <:+: s.toList)

/-- Bytes-per-sample estimate of `SessionBuffer.add_chunk`
(mqtt_handler.py:65): 2 when the format mentions int16, else 1. -/
def bytesPerSample (format : String) : Nat :=
  if containsStr format "int16" || containsStr format "s16" then 2 else 1

/-- In-memory per-(session, modality) buffer (mqtt_handler.py:24-56).
Timing fields are omitted: no settled claim mentions them. -/
structure SessionBuffer where
  sessionId : String
  orgId : String
  deviceId : String
  modality : String
  valvePosition : Option String
  sampleRate : ℚ
  format : String
  chunks : List (List Nat)
  totalBytes : Nat
  totalSamples : Nat
  ended : Bool
deriving DecidableEq

/-- Configuration carried by a `start_*` meta message (the fields the
buffer constructor reads). -/
structure BufferConfig where
  valvePosition : Option String := none
  sampleRateHz : Option ℚ := none
  format : Option String := none
deriving DecidableEq

/-- `SessionBuffer.__init__` (mqtt_handler.py:27-56): capture config
with defaults `sample_rate_hz = 22050` for pcg / `500` otherwise and
`format = "pcm_s16le"`. -/
def mkSessionBuffer (sessionId orgId deviceId modality : String)
    (config : BufferConfig) : SessionBuffer :=
  { sessionId := sessionId
    orgId := orgId
    deviceId := deviceId
    modality := modality
    valvePosition := config.valvePosition
    sampleRate := config.sampleRateHz.getD (if modality = "pcg" then 22050 else 500)
    format := config.format.getD "pcm_s16le"
    chunks := []
    totalBytes := 0
    totalSamples := 0
    ended := false }

/-- `SessionBuffer.add_chunk` (mqtt_handler.py:58-66): append the chunk,
add its length to `total_bytes`, and add `len(data) // bytes_per_sample`
to `total_samples`. -/
def add_chunk (b : SessionBuffer) (data : List Nat) : SessionBuffer :=
  { b with
    chunks := b.chunks ++ [data]
    totalBytes := b.totalBytes + data.length
    totalSamples := b.totalSamples + data.length / bytesPerSample b.format }

/-- `k` successive `add_chunk` calls with the same chunk. -/
def addChunks (b : SessionBuffer) (data : List Nat) : Nat → SessionBuffer
  | 0 => b
  | k + 1 => add_chunk (addChunks b data k) data

/-- `SessionBuffer.get_duration` (mqtt_handler.py:68-72):
`total_samples / sample_rate` when both are positive, else `0.0`. -/
def get_duration (b : SessionBuffer) : ℚ :=
  if 0 < b.totalSamples ∧ 0 < b.sampleRate then
    (b.totalSamples : ℚ) / b.sampleRate
  else 0

/-! ## Inference engine (inference.py)

The model-backed branches run an external model runtime; they enter the
embedding as function parameters giving the label/probabilities the
model would return. The demo branches are translated literally. Decimal
probability literals are modelled as the rationals they denote (the
float sums differ from the rational sums by far less than the `1e-3`
tolerance any claim uses). -/

/-- One classification output: a winning class and a mapping from class
name to probability. -/
structure ClassOutput where
  label : String
  probabilities : List (String × ℚ)
deriving DecidableEq

/-- The `scenario_labels` dict of `_demo_pcg_prediction`
(inference.py:305-314). -/
def scenarioLabels : List (String × String) :=
  [("normal", "Normal"), ("tachycardia", "Normal"), ("bradycardia", "Normal"),
   ("systolic_murmur", "Murmur"), ("diastolic_murmur", "Murmur"),
   ("combined_murmur", "Murmur"), ("abnormal_ecg", "Normal"), ("afib", "Normal")]

/-- `scenario_labels.get(scenario, 'Normal')` (inference.py:316). -/
def scenarioLabel (scenario : String) : String :=
  (scenarioLabels.lookup scenario).getD "Normal"

/-- `InferenceEngine._demo_pcg_prediction` (inference.py:302-345). The
`audio` argument is received but never read: the branch taken depends
only on `scenario`, which every caller leaves at its default
`'normal'`. -/
def demo_pcg_prediction (_audio : List ℚ) (scenario : String := "normal") :
    ClassOutput :=
  let expected := scenarioLabel scenario
  if expected = "Murmur" then
    { label := "Murmur"
      probabilities := [("Normal", 20/100), ("Murmur", 70/100), ("Artifact", 10/100)] }
  else if expected = "Artifact" then
    { label := "Artifact"
      probabilities := [("Normal", 15/100), ("Murmur", 20/100), ("Artifact", 65/100)] }
  else
    { label := "Normal"
      probabilities := [("Normal", 75/100), ("Murmur", 15/100), ("Artifact", 10/100)] }

/-- The fixed probability vector attached to each demo PCG branch. -/
def pcgBranchProbs (label : String) : List (String × ℚ) :=
  if label = "Murmur" then
    [("Normal", 20/100), ("Murmur", 70/100), ("Artifact", 10/100)]
  else if label = "Artifact" then
    [("Normal", 15/100), ("Murmur", 20/100), ("Artifact", 65/100)]
  else
    [("Normal", 75/100), ("Murmur", 15/100), ("Artifact", 10/100)]

/-- One severity head: `{predicted, probabilities}` (inference.py:289-298). -/
structure SeverityHead where
  predicted : String
  probabilities : List (String × ℚ)
deriving DecidableEq

/-- The six heads of a murmur-severity result. -/
structure SeverityOutput where
  location : SeverityHead
  timing : SeverityHead
  shape : SeverityHead
  grading : SeverityHead
  pitch : SeverityHead
  quality : SeverityHead
deriving DecidableEq

/-- `InferenceEngine._demo_severity_prediction` (inference.py:347-397):
a fixed canonical record. -/
def demo_severity_prediction : SeverityOutput :=
  { location :=
      { predicted := "MV"
        probabilities :=
          [("AV", 10/100), ("MV", 45/100), ("PV", 12/100), ("TV", 8/100),
           ("Left heart", 8/100), ("Right heart", 5/100), ("AV+Right", 4/100),
           ("MV+Right", 3/100), ("Multiple (3+)", 3/100), ("Other", 2/100)] }
    timing :=
      { predicted := "Mid-systolic"
        probabilities :=
          [("Early-systolic", 10/100), ("Mid-systolic", 50/100),
           ("Late-systolic", 15/100), ("Holosystolic", 20/100), ("Unknown", 5/100)] }
    shape :=
      { predicted := "Crescendo-decrescendo"
        probabilities :=
          [("Crescendo", 15/100), ("Decrescendo", 18/100),
           ("Crescendo-decrescendo", 50/100), ("Plateau", 12/100), ("Unknown", 5/100)] }
    grading :=
      { predicted := "III/VI"
        probabilities :=
          [("I/VI", 5/100), ("II/VI", 12/100), ("III/VI", 38/100), ("IV/VI", 22/100),
           ("V/VI", 10/100), ("VI/VI", 5/100), ("Unknown", 8/100)] }
    pitch :=
      { predicted := "Medium"
        probabilities :=
          [("Low", 18/100), ("Medium", 50/100), ("High", 25/100), ("Unknown", 7/100)] }
    quality :=
      { predicted := "Blowing"
        probabilities :=
          [("Blowing", 48/100), ("Harsh", 28/100), ("Musical", 15/100),
           ("Unknown", 9/100)] } }

/-- `np.var`: population variance (0 for an empty signal, where numpy
would produce NaN — no claim touches that case). -/
def variance (xs : List ℚ) : ℚ :=
  if xs.length = 0 then 0
  else
    let m := xs.sum / xs.length
    (xs.map (fun x => (x - m) ^ 2)).sum / xs.length

/-- `InferenceEngine._demo_ecg_prediction` (inference.py:399-436):
banding on the signal variance. -/
def demo_ecg_prediction (ecg : List ℚ) : ClassOutput :=
  if variance ecg > 2 then
    { label := "VEB"
      probabilities :=
        [("Normal", 12/100), ("SVEB", 10/100), ("VEB", 68/100),
         ("Fusion", 6/100), ("Unknown", 4/100)] }
  else if variance ecg > 1 then
    { label := "SVEB"
      probabilities :=
        [("Normal", 20/100), ("SVEB", 62/100), ("VEB", 8/100),
         ("Fusion", 5/100), ("Unknown", 5/100)] }
  else
    { label := "Normal"
      probabilities :=
        [("Normal", 81/100), ("SVEB", 8/100), ("VEB", 5/100),
         ("Fusion", 3/100), ("Unknown", 3/100)] }

/-- The metadata every `predict_*` method attaches to its result
(inference.py:129-137, 210-218, 272-280): `model_version` is
`"v1.0.0"` when a real model answered, `"demo"` in demo mode, and
`demo_mode` mirrors `demo_mode_active`. -/
structure PredictionMeta where
  modelName : String
  modelVersion : String
  demoMode : Bool
deriving DecidableEq

/-- The metadata attachment shared by all three predict methods. -/
def mkMeta (modelName : String) (demoModeActive : Bool) : PredictionMeta :=
  { modelName := modelName
    modelVersion := if demoModeActive = false then "v1.0.0" else "demo"
    demoMode := demoModeActive }

/-- `InferenceEngine.predict_pcg` (inference.py:90-140), with the
XGBoost branch abstracted as the parameter `model` (the label and
probabilities it would produce for the given audio). In demo mode the
demo prediction is called with its default scenario. -/
def predict_pcg (demoModeActive : Bool) (model : List ℚ → ClassOutput)
    (audio : List ℚ) : ClassOutput × PredictionMeta :=
  let core := if demoModeActive then demo_pcg_prediction audio else model audio
  (core, mkMeta "pcg_xgboost_classifier" demoModeActive)

/-- `InferenceEngine.predict_murmur_severity` (inference.py:146-225),
with the CNN branch abstracted as `model`. Whenever this method
returns (rather than raising), its result is a populated record — the
caller's `if severity_result:` truthiness test always passes. -/
def predict_murmur_severity (demoModeActive : Bool)
    (model : List ℚ → SeverityOutput) (audio : List ℚ) :
    SeverityOutput × PredictionMeta :=
  let core := if demoModeActive then demo_severity_prediction else model audio
  (core, mkMeta "murmur_severity_cnn" demoModeActive)

/-- `InferenceEngine.predict_ecg` (inference.py:227-287), with the
BiLSTM branch abstracted as `model`. -/
def predict_ecg (demoModeActive : Bool) (model : List ℚ → ClassOutput)
    (ecg : List ℚ) : ClassOutput × PredictionMeta :=
  let core := if demoModeActive then demo_ecg_prediction ecg else model ecg
  (core, mkMeta "ecg_bilstm_predictor" demoModeActive)

/-- A probability mapping is valid when every entry lies in `[0, 1]`
and the entries sum to `1` within `1e-3`. -/
def validProbs (ps : List (String × ℚ)) : Prop :=
  (∀ p ∈ ps, 0 ≤ p.2 ∧ p.2 ≤ 1) ∧ |(ps.map (fun p => p.2)).sum - 1| ≤ 1/1000

/-! ## MQTT handler pipeline (mqtt_handler.py:127-645)

The handler's side effects — persistence-gateway calls, warn/error
logs, task spawns, model invocations — are recorded as an event trace.
Calls into the persistence gateway never raise: every `SupabaseClient`
method catches its own exceptions and returns a `False`/`None` the
handler ignores (supabase_client.py). The steps that can raise inside
the finalization `try` (signal reconstruction, model inference) have
their outcome supplied by an environment record. -/

/-- One observable effect of the handler. -/
inductive Event
  | warn (msg : String)
  | errorLog (msg : String)
  | updateSessionStatus (sessionId status : String)
  | uploadAttempt (path : String) (ok : Bool)
  | createRecording (orgId sessionId modality : String)
  | createPrediction (sessionId modality : String)
  | createMurmurSeverity (sessionId : String)
  | createAuditLog (action : String)
  | spawnedHeartbeat (deviceId : String)
  | spawnedEndPcg (sessionId : String)
  | spawnedEndEcg (sessionId : String)
  | ranPcgInference
  | ranSeverityInference
  | ranEcgInference
deriving DecidableEq

/-- The live buffer map `self.buffers`, keys `"{session_id}_{modality}"`. -/
abbrev Buffers : Type := List (String × SessionBuffer)

def hasKey (m : Buffers) (k : String) : Bool :=
  (List.lookup k m).isSome

def setKey (m : Buffers) (k : String) (v : SessionBuffer) : Buffers :=
  List.map (fun p => if p.1 = k then (k, v) else p) m

def eraseKey : Buffers → String → Buffers
  | [], _ => []
  | p :: rest, k => if p.1 = k then rest else p :: eraseKey rest k

/-- How many bindings of `k` the map holds (a Python dict holds at most
one; the model does not depend on that). -/
def countKey (m : Buffers) (k : String) : Nat :=
  (List.map Prod.fst m).count k

/-- Outcomes of the fallible steps of `_handle_end_pcg`: whether
`reconstruct_signal` raises, whether the upload succeeds (`upload_file`
never raises — it returns this boolean, which the handler ignores),
whether `predict_pcg` raises and which label it returns when it does
not, and whether `predict_murmur_severity` raises. -/
structure PcgEnv where
  reconstructOk : Bool
  uploadOk : Bool
  inferenceOk : Bool
  label : String
  severityOk : Bool
deriving DecidableEq

/-- Outcomes of the fallible steps of `_handle_end_ecg`. -/
structure EcgEnv where
  reconstructOk : Bool
  uploadOk : Bool
  inferenceOk : Bool
deriving DecidableEq

/-- The `try` block of `_handle_end_pcg` (mqtt_handler.py:371-447):
events emitted up to the first raising step, and whether the block
completed. `create_recording` follows the upload unconditionally: the
upload's boolean result is never consulted. The severity row is created
whenever `predict_murmur_severity` returns, since its result is always
a populated (truthy) record. -/
def pcgTryBody (env : PcgEnv) (buf : SessionBuffer) (sessionId : String) :
    List Event × Bool :=
  let e1 := [Event.updateSessionStatus sessionId "processing"]
  if env.reconstructOk = false then (e1, false) else
  let path := buf.orgId ++ "/" ++ sessionId ++ "/pcg/recording.wav"
  let e2 := e1 ++ [Event.uploadAttempt path env.uploadOk,
    Event.createRecording buf.orgId sessionId "pcg", Event.ranPcgInference]
  if env.inferenceOk = false then (e2, false) else
  let e3 := e2 ++ [Event.createPrediction sessionId "pcg"]
  if env.label = "Murmur" then
    let e4 := e3 ++ [Event.ranSeverityInference]
    if env.severityOk = false then (e4, false)
    else (e4 ++ [Event.createMurmurSeverity sessionId,
      Event.createAuditLog "pcg_inference_completed"], true)
  else (e3 ++ [Event.createAuditLog "pcg_inference_completed"], true)

/-- `MQTTHandler._handle_end_pcg` (mqtt_handler.py:360-462): look up the
buffer (warn and stop if absent), mark it ended, run the `try` block,
on failure run the `except` arm, and in `finally` delete the buffer
from the live map. -/
def handle_end_pcg (env : PcgEnv) (m : Buffers) (sessionId : String) :
    Buffers × List Event :=
  let key := sessionId ++ "_pcg"
  match List.lookup key m with
  | none => (m, [Event.warn ("No PCG buffer for session " ++ sessionId)])
  | some buf =>
    let m1 := setKey m key { buf with ended := true }
    let body := pcgTryBody env buf sessionId
    let evs := body.1 ++ (if body.2 then [] else
      [Event.updateSessionStatus sessionId "error",
       Event.createAuditLog "pcg_inference_failed"])
    (eraseKey m1 key, evs)

/-- The `try` block of `_handle_end_ecg` (mqtt_handler.py:475-544);
`pcgPresent` is whether `"{session}_pcg"` is still in the live map when
the final status check runs. -/
def ecgTryBody (env : EcgEnv) (buf : SessionBuffer) (sessionId : String)
    (pcgPresent : Bool) : List Event × Bool :=
  let e1 := [Event.updateSessionStatus sessionId "processing"]
  if env.reconstructOk = false then (e1, false) else
  let path := buf.orgId ++ "/" ++ sessionId ++ "/ecg/recording.bin"
  let e2 := e1 ++ [Event.uploadAttempt path env.uploadOk,
    Event.createRecording buf.orgId sessionId "ecg", Event.ranEcgInference]
  if env.inferenceOk = false then (e2, false) else
  let e3 := e2 ++ [Event.createPrediction sessionId "ecg",
    Event.createAuditLog "ecg_inference_completed"]
  (e3 ++ (if pcgPresent then [] else
    [Event.updateSessionStatus sessionId "done"]), true)

/-- `MQTTHandler._handle_end_ecg` (mqtt_handler.py:464-559). -/
def handle_end_ecg (env : EcgEnv) (m : Buffers) (sessionId : String) :
    Buffers × List Event :=
  let key := sessionId ++ "_ecg"
  match List.lookup key m with
  | none => (m, [Event.warn ("No ECG buffer for session " ++ sessionId)])
  | some buf =>
    let m1 := setKey m key { buf with ended := true }
    let body := ecgTryBody env buf sessionId (hasKey m1 (sessionId ++ "_pcg"))
    let evs := body.1 ++ (if body.2 then [] else
      [Event.updateSessionStatus sessionId "error",
       Event.createAuditLog "ecg_inference_failed"])
    (eraseKey m1 key, evs)

/-! ### Topic routing (`_on_message`, mqtt_handler.py:211-237) -/

/-- Python's `str.split(sep)` for a single-character separator. -/
def splitOnChar (sep : Char) (cs : List Char) : List (List Char) :=
  cs.foldr
    (fun c acc => if c = sep then [] :: acc else (c :: acc.headD []) :: acc.tail)
    [[]]

/-- `topic.split('/')`. -/
def pySplit (s : String) (sep : Char) : List String :=
  (splitOnChar sep s.toList).map List.asString

/-- An incoming payload, in pre-parsed form (JSON and base64 decoding
are external to the claims): a meta payload that failed `json.loads`,
a parsed meta object (its `type` field and the config fields the buffer
constructor reads), a raw binary chunk, or a `{"data": base64}` chunk
(`none` when its decoding raises). -/
inductive PayloadModel
  | metaInvalid
  | metaParsed (mtype : Option String) (config : BufferConfig)
  | binary (data : List Nat)
  | jsonChunk (data : Option (List Nat))
deriving DecidableEq

/-- `MQTTHandler._handle_start_pcg` (mqtt_handler.py:263-288): reject a
duplicate start with a warning, otherwise insert a fresh buffer and
spawn the `streaming` status update. -/
def handle_start_pcg (orgId deviceId sessionId : String)
    (config : BufferConfig) (m : Buffers) : Buffers × List Event :=
  let key := sessionId ++ "_pcg"
  if hasKey m key then
    (m, [Event.warn ("PCG buffer already exists for session " ++ sessionId)])
  else
    (m ++ [(key, mkSessionBuffer sessionId orgId deviceId "pcg" config)],
     [Event.updateSessionStatus sessionId "streaming"])

/-- `MQTTHandler._handle_start_ecg` (mqtt_handler.py:290-314). -/
def handle_start_ecg (orgId deviceId sessionId : String)
    (config : BufferConfig) (m : Buffers) : Buffers × List Event :=
  let key := sessionId ++ "_ecg"
  if hasKey m key then
    (m, [Event.warn ("ECG buffer already exists for session " ++ sessionId)])
  else
    (m ++ [(key, mkSessionBuffer sessionId orgId deviceId "ecg" config)],
     [Event.updateSessionStatus sessionId "streaming"])

/-- `MQTTHandler._handle_meta_message` (mqtt_handler.py:239-261):
dispatch on the `type` field; unknown or missing types fall through
silently; a JSON decoding failure is caught and logged. -/
def handle_meta_message (orgId deviceId sessionId : String)
    (payload : PayloadModel) (m : Buffers) : Buffers × List Event :=
  match payload with
  | PayloadModel.metaParsed mtype config =>
    match mtype with
    | some t =>
      if t = "start_pcg" then handle_start_pcg orgId deviceId sessionId config m
      else if t = "end_pcg" then (m, [Event.spawnedEndPcg sessionId])
      else if t = "start_ecg" then handle_start_ecg orgId deviceId sessionId config m
      else if t = "end_ecg" then (m, [Event.spawnedEndEcg sessionId])
      else (m, [])
    | none => (m, [])
  | _ => (m, [Event.errorLog "Error handling meta message"])

/-- `MQTTHandler._handle_data_chunk` (mqtt_handler.py:316-354): ignore
chunks for absent buffers with a warning; append the decoded bytes;
spawn a forced end when the buffer's duration reaches the modality's
cap (defaults: PCG 15 s, ECG 60 s). -/
def handle_data_chunk (sessionId modality : String) (payload : PayloadModel)
    (m : Buffers) : Buffers × List Event :=
  let key := sessionId ++ "_" ++ modality
  match List.lookup key m with
  | none =>
    (m, [Event.warn ("No buffer for " ++ modality ++ " session " ++ sessionId)])
  | some buf =>
    let dataOpt := match payload with
      | PayloadModel.binary d => some d
      | PayloadModel.jsonChunk d => d
      | _ => none
    match dataOpt with
    | none => (m, [Event.errorLog ("Error handling " ++ modality ++ " chunk")])
    | some data =>
      let buf' := add_chunk buf data
      let m' := setKey m key buf'
      let maxDuration : ℚ := if modality = "pcg" then 15 else 60
      if maxDuration ≤ get_duration buf' then
        (m', [Event.warn "buffer exceeded max duration",
          if modality = "pcg" then Event.spawnedEndPcg sessionId
          else Event.spawnedEndEcg sessionId])
      else (m', [])

/-- `MQTTHandler._on_message` (mqtt_handler.py:211-237): split the
topic on `'/'`; a topic that does not yield exactly 8 segments is
warned and dropped; otherwise route on segment 7 with the ids at
segments 1, 3, 5 (no further validation of the ids). -/
def on_message (m : Buffers) (topic : String) (payload : PayloadModel) :
    Buffers × List Event :=
  let parts := pySplit topic '/'
  if parts.length = 8 then
    let orgId := parts.getD 1 ""
    let deviceId := parts.getD 3 ""
    let sessionId := parts.getD 5 ""
    let msgType := parts.getD 7 ""
    if msgType = "meta" then handle_meta_message orgId deviceId sessionId payload m
    else if msgType = "pcg" then handle_data_chunk sessionId "pcg" payload m
    else if msgType = "ecg" then handle_data_chunk sessionId "ecg" payload m
    else if msgType = "heartbeat" then (m, [Event.spawnedHeartbeat deviceId])
    else (m, [])
  else (m, [Event.warn ("Invalid topic format: " ++ topic)])

/-- A concrete PCG session buffer used to instantiate theorems. -/
def demoBuf : SessionBuffer := mkSessionBuffer "s" "o" "d" "pcg" {}

/-- A concrete ECG session buffer used to instantiate theorems. -/
def demoEcgBuf : SessionBuffer := mkSessionBuffer "s" "o" "d" "ecg" {}

/-- A fresh int16-format buffer at 500 Hz, as created by a `start_ecg`
with `format="int16"` and `sample_rate_hz=500`. -/
def c9Buf : SessionBuffer :=
  mkSessionBuffer "s" "o" "d" "ecg"
    { format := some "int16", sampleRateHz := some 500 }

/-! ## Buffer-map lemmas -/

lemma fst_setKey (m : Buffers) (k : String) (v : SessionBuffer) :
    List.map Prod.fst (setKey m k v) = List.map Prod.fst m := by
  induction m with
  | nil => rfl
  | cons p rest ih =>
    simp only [setKey, List.map_cons] at ih ⊢
    by_cases h : p.1 = k <;> simp [h, ih]

lemma hasKey_iff_mem (m : Buffers) (k : String) :
    hasKey m k = true ↔ k ∈ List.map Prod.fst m := by
  induction m with
  | nil => simp [hasKey]
  | cons p rest ih =>
    simp only [hasKey, List.lookup, List.map_cons, List.mem_cons] at ih ⊢
    by_cases h : k = p.1
    · simp [h]
    · have hb : (k == p.1) = false := by simpa using h
      simp [hb, ih, h]

lemma countKey_setKey (m : Buffers) (k k' : String) (v : SessionBuffer) :
    countKey (setKey m k v) k' = countKey m k' := by
  unfold countKey
  rw [fst_setKey]

lemma countKey_eraseKey (m : Buffers) (k : String)
    (h : hasKey m k = true) :
    countKey (eraseKey m k) k + 1 = countKey m k := by
  induction m with
  | nil => simp [hasKey] at h
  | cons p rest ih =>
    by_cases hp : p.1 = k
    · simp [eraseKey, hp, countKey, List.count_cons]
    · have hb : (k == p.1) = false := by
        simpa using fun hh => hp hh.symm
      have hr : hasKey rest k = true := by
        simpa [hasKey, List.lookup, hb] using h
      have := ih hr
      simp only [eraseKey, if_neg hp, countKey, List.map_cons,
        List.count_cons] at this ⊢
      have hne : (p.1 == k) = false := by simpa using hp
      simp only [hne, beq_iff_eq] at *
      omega

/-! ## Codec lemmas -/

lemma toSigned16_lb (n : Nat) : -32768 ≤ toSigned16 n := by
  unfold toSigned16; split <;> omega

lemma toSigned16_ub (n : Nat) (h : n < 65536) : toSigned16 n < 32768 := by
  unfold toSigned16; split <;> omega

lemma truncRat_intCast (v : Int) : truncRat (v : ℚ) = v := by
  unfold truncRat
  split <;> simp

lemma wrapInt16_eq_self (v : Int) (h1 : -32768 ≤ v) (h2 : v < 32768) :
    wrapInt16 v = v := by
  unfold wrapInt16
  have : (v + 32768) % 65536 = v + 32768 :=
    Int.emod_eq_of_lt (by omega) (by omega)
  omega

/-- Re-encoding the normalized value of an in-range int16 sample
recovers the sample exactly: the scaling by `2^15` is exact, truncation
is the identity on integers, and no wraparound occurs. -/
lemma encodeSample_scaled (v : Int) (h1 : -32768 ≤ v) (h2 : v < 32768) :
    encodeSample ((v : ℚ) / 32768) = v := by
  unfold encodeSample
  have hmul : ((v : ℚ) / 32768) * 32768 = (v : ℚ) :=
    div_mul_cancel₀ _ (by norm_num)
  rw [hmul, truncRat_intCast, wrapInt16_eq_self v h1 h2]

lemma int16Bytes_toSigned16 (lo hi : Nat) (hlo : lo < 256) (hhi : hi < 256) :
    int16Bytes (toSigned16 (lo + 256 * hi)) = [lo, hi] := by
  simp only [int16Bytes, toSigned16, List.cons.injEq, and_true]
  split <;> constructor <;> omega

/-- Re-encoding a decoded even-length byte string is the identity,
two bytes at a time. -/
theorem encode_reconstruct_roundtrip :
    ∀ bs : List Nat, (∀ b ∈ bs, b < 256) → 2 ∣ bs.length →
      encode_int16le (reconstructInt16 bs) = bs
  | [], _, _ => rfl
  | [_], _, hlen => by simp only [List.length_singleton] at hlen; omega
  | b0 :: b1 :: rest, h, hlen => by
      have hb0 : b0 < 256 := h b0 (by simp)
      have hb1 : b1 < 256 := h b1 (by simp)
      have hrest : ∀ b ∈ rest, b < 256 := fun b hb => h b (by simp [hb])
      have hlen' : 2 ∣ rest.length := by
        simp only [List.length_cons] at hlen; omega
      have ih := encode_reconstruct_roundtrip rest hrest hlen'
      have hlt : b0 + 256 * b1 < 65536 := by omega
      simp only [reconstructInt16, decode_int16le, bytePairs, List.map_cons,
        encode_int16le, List.flatten_cons] at ih ⊢
      rw [encodeSample_scaled _ (toSigned16_lb _) (toSigned16_ub _ hlt),
        int16Bytes_toSigned16 b0 b1 hb0 hb1]
      simpa using ih

/-! ## Finalization shape lemmas -/

lemma handle_end_pcg_map (env : PcgEnv) (m : Buffers) (sessionId : String)
    (buf : SessionBuffer)
    (hbuf : List.lookup (sessionId ++ "_pcg") m = some buf) :
    (handle_end_pcg env m sessionId).1 =
      eraseKey (setKey m (sessionId ++ "_pcg") { buf with ended := true })
        (sessionId ++ "_pcg") := by
  unfold handle_end_pcg
  simp only [hbuf]

lemma handle_end_pcg_events (env : PcgEnv) (m : Buffers) (sessionId : String)
    (buf : SessionBuffer)
    (hbuf : List.lookup (sessionId ++ "_pcg") m = some buf) :
    (handle_end_pcg env m sessionId).2 =
      (pcgTryBody env buf sessionId).1 ++
        (if (pcgTryBody env buf sessionId).2 then [] else
          [Event.updateSessionStatus sessionId "error",
           Event.createAuditLog "pcg_inference_failed"]) := by
  unfold handle_end_pcg
  simp only [hbuf]

lemma handle_end_ecg_map (env : EcgEnv) (m : Buffers) (sessionId : String)
    (buf : SessionBuffer)
    (hbuf : List.lookup (sessionId ++ "_ecg") m = some buf) :
    (handle_end_ecg env m sessionId).1 =
      eraseKey (setKey m (sessionId ++ "_ecg") { buf with ended := true })
        (sessionId ++ "_ecg") := by
  unfold handle_end_ecg
  simp only [hbuf]

/-! ## Claim theorems -/

/-- **C5.** After an `end_pcg` or `end_ecg` finalization attempt on an
existing buffer, the `(session, modality)` key is deleted from the live
buffer map exactly once (one fewer binding than before), whatever the
outcome of the finalization pipeline: the deletion sits in the
`finally` arm, so it runs on success and on every raising path alike
(the environments are universally quantified over all outcomes). -/
theorem claim5_buffer_deleted_exactly_once (envP : PcgEnv) (envE : EcgEnv)
    (m : Buffers) (sessionId : String) :
    (hasKey m (sessionId ++ "_pcg") = true →
      countKey (handle_end_pcg envP m sessionId).1 (sessionId ++ "_pcg") + 1 =
        countKey m (sessionId ++ "_pcg")) ∧
    (hasKey m (sessionId ++ "_ecg") = true →
      countKey (handle_end_ecg envE m sessionId).1 (sessionId ++ "_ecg") + 1 =
        countKey m (sessionId ++ "_ecg")) := by
  constructor
  · intro h
    obtain ⟨buf, hbuf⟩ := Option.isSome_iff_exists.mp h
    rw [handle_end_pcg_map envP m sessionId buf hbuf]
    have h2 : hasKey (setKey m (sessionId ++ "_pcg") { buf with ended := true })
        (sessionId ++ "_pcg") = true := by
      rw [hasKey_iff_mem, fst_setKey, ← hasKey_iff_mem]
      exact h
    rw [countKey_eraseKey _ _ h2, countKey_setKey]
  · intro h
    obtain ⟨buf, hbuf⟩ := Option.isSome_iff_exists.mp h
    rw [handle_end_ecg_map envE m sessionId buf hbuf]
    have h2 : hasKey (setKey m (sessionId ++ "_ecg") { buf with ended := true })
        (sessionId ++ "_ecg") = true := by
      rw [hasKey_iff_mem, fst_setKey, ← hasKey_iff_mem]
      exact h
    rw [countKey_eraseKey _ _ h2, countKey_setKey]

/-- Witness for C5: a concrete map holding both keys, with concrete
environments; both counts drop from 1 to 0. -/
theorem claim5_witness :
    countKey (handle_end_pcg ⟨true, true, true, "Normal", true⟩
        [("s_pcg", demoBuf), ("s_ecg", demoEcgBuf)] "s").1 ("s" ++ "_pcg") + 1 =
      countKey [("s_pcg", demoBuf), ("s_ecg", demoEcgBuf)] ("s" ++ "_pcg") ∧
    countKey (handle_end_ecg ⟨true, true, true⟩
        [("s_pcg", demoBuf), ("s_ecg", demoEcgBuf)] "s").1 ("s" ++ "_ecg") + 1 =
      countKey [("s_pcg", demoBuf), ("s_ecg", demoEcgBuf)] ("s" ++ "_ecg") := by
  have h := claim5_buffer_deleted_exactly_once
    ⟨true, true, true, "Normal", true⟩ ⟨true, true, true⟩
    [("s_pcg", demoBuf), ("s_ecg", demoEcgBuf)] "s"
  exact ⟨h.1 (by decide), h.2 (by decide)⟩

/-- **C6.** In PCG finalization, when the pipeline steps up to and
including the severity model do not raise, the severity inference runs
and a `murmur_severity` row is created exactly when the PCG prediction
label is `"Murmur"`; for any other label neither happens. -/
theorem claim6_severity_iff_murmur (env : PcgEnv) (m : Buffers)
    (sessionId : String) (buf : SessionBuffer)
    (hbuf : List.lookup (sessionId ++ "_pcg") m = some buf)
    (hrec : env.reconstructOk = true) (hinf : env.inferenceOk = true)
    (hsev : env.severityOk = true) :
    (Event.ranSeverityInference ∈ (handle_end_pcg env m sessionId).2 ↔
      env.label = "Murmur") ∧
    (Event.createMurmurSeverity sessionId ∈ (handle_end_pcg env m sessionId).2 ↔
      env.label = "Murmur") := by
  rw [handle_end_pcg_events env m sessionId buf hbuf]
  unfold pcgTryBody
  rw [hrec, hinf, hsev]
  by_cases hl : env.label = "Murmur" <;> simp [hl]

/-- Witness for C6: with the label `"Murmur"` and a successful
pipeline, both the severity run and the severity row are present. -/
theorem claim6_witness :
    Event.ranSeverityInference ∈
      (handle_end_pcg ⟨true, true, true, "Murmur", true⟩
        [("s_pcg", demoBuf)] "s").2 ∧
    Event.createMurmurSeverity "s" ∈
      (handle_end_pcg ⟨true, true, true, "Murmur", true⟩
        [("s_pcg", demoBuf)] "s").2 := by
  have h := claim6_severity_iff_murmur ⟨true, true, true, "Murmur", true⟩
    [("s_pcg", demoBuf)] "s" demoBuf rfl rfl rfl rfl
  exact ⟨h.1.mpr rfl, h.2.mpr rfl⟩

/-- **C2, counterexample.** The claim says `create_recording` is
invoked only if the preceding `upload_file` call succeeded, and that on
upload failure the recording row is skipped. On a concrete session
whose upload fails (`uploadOk = false`), the trace of
`_handle_end_pcg` nonetheless contains the `create_recording` call
right after the failed upload: `upload_file` catches its own exception
and returns `False`, and the handler never reads that result. -/
theorem claim2_counterexample :
    Event.uploadAttempt ("o" ++ "/" ++ "s" ++ "/pcg/recording.wav") false ∈
      (handle_end_pcg ⟨true, false, true, "Normal", true⟩
        [("s_pcg", demoBuf)] "s").2 ∧
    Event.createRecording "o" "s" "pcg" ∈
      (handle_end_pcg ⟨true, false, true, "Normal", true⟩
        [("s_pcg", demoBuf)] "s").2 := by
  constructor <;> decide

/-- **C2, amended.** During PCG finalization on an existing buffer,
once signal reconstruction succeeds, the upload is attempted and
`create_recording` is invoked regardless of whether the upload
succeeded (its boolean result is ignored); the prediction row is
likewise attempted whenever inference does not raise. -/
theorem claim2_amended_recording_unconditional (env : PcgEnv) (m : Buffers)
    (sessionId : String) (buf : SessionBuffer)
    (hbuf : List.lookup (sessionId ++ "_pcg") m = some buf)
    (hrec : env.reconstructOk = true) :
    Event.uploadAttempt (buf.orgId ++ "/" ++ sessionId ++ "/pcg/recording.wav")
        env.uploadOk ∈ (handle_end_pcg env m sessionId).2 ∧
    Event.createRecording buf.orgId sessionId "pcg" ∈
      (handle_end_pcg env m sessionId).2 ∧
    (env.inferenceOk = true →
      Event.createPrediction sessionId "pcg" ∈ (handle_end_pcg env m sessionId).2) := by
  rw [handle_end_pcg_events env m sessionId buf hbuf]
  unfold pcgTryBody
  rw [hrec]
  refine ⟨?_, ?_, ?_⟩
  · by_cases hinf : env.inferenceOk = false
    · simp [hinf]
    · by_cases hl : env.label = "Murmur"
      · by_cases hs : env.severityOk = false <;> simp [hinf, hl, hs]
      · simp [hinf, hl]
  · by_cases hinf : env.inferenceOk = false
    · simp [hinf]
    · by_cases hl : env.label = "Murmur"
      · by_cases hs : env.severityOk = false <;> simp [hinf, hl, hs]
      · simp [hinf, hl]
  · intro hinf
    rw [hinf]
    by_cases hl : env.label = "Murmur"
    · by_cases hs : env.severityOk = false <;> simp [hl, hs]
    · simp [hl]

/-- Witness for C2 (amended): concrete failed upload, recording and
prediction rows still attempted. -/
theorem claim2_amended_witness :
    Event.uploadAttempt (demoBuf.orgId ++ "/" ++ "s" ++ "/pcg/recording.wav")
        false ∈ (handle_end_pcg ⟨true, false, true, "Normal", true⟩
          [("s_pcg", demoBuf)] "s").2 ∧
    Event.createPrediction "s" "pcg" ∈
      (handle_end_pcg ⟨true, false, true, "Normal", true⟩
        [("s_pcg", demoBuf)] "s").2 := by
  have h := claim2_amended_recording_unconditional
    ⟨true, false, true, "Normal", true⟩ [("s_pcg", demoBuf)] "s" demoBuf rfl rfl
  exact ⟨h.1, h.2.2 rfl⟩

/-- **C4, counterexample.** The claim says a message whose topic has an
empty org/device/session id is warned and dropped with no handler run
and an unchanged buffer map. The concrete topic
`org//device/d/session/s/x/meta` splits into exactly 8 segments with an
empty org id, yet a `start_pcg` meta message on it runs the start
handler: the buffer map gains the key `s_pcg` and the streaming status
update is emitted — no id emptiness check exists. -/
theorem claim4_counterexample :
    (pySplit "org//device/d/session/s/x/meta" '/').length = 8 ∧
    (pySplit "org//device/d/session/s/x/meta" '/').getD 1 "" = "" ∧
    hasKey (on_message [] "org//device/d/session/s/x/meta"
      (PayloadModel.metaParsed (some "start_pcg") {})).1 "s_pcg" = true ∧
    (on_message [] "org//device/d/session/s/x/meta"
      (PayloadModel.metaParsed (some "start_pcg") {})).2 =
      [Event.updateSessionStatus "s" "streaming"] := by
  refine ⟨by decide, by decide, by decide, by decide⟩

/-- **C4, amended.** Only the segment-count rule is enforced: a message
whose topic does not split into exactly 8 `'/'`-separated segments is
logged at warn level and dropped — no handler runs, no persistence
call is recorded, and the buffer map is unchanged. Id emptiness is not
validated. -/
theorem claim4_amended_topic_validation (m : Buffers) (topic : String)
    (payload : PayloadModel) (h : (pySplit topic '/').length ≠ 8) :
    on_message m topic payload =
      (m, [Event.warn ("Invalid topic format: " ++ topic)]) := by
  unfold on_message
  simp [h]

/-- Witness for C4 (amended): a two-segment topic is dropped with only
the warning. -/
theorem claim4_amended_witness :
    on_message [] "a/b" PayloadModel.metaInvalid =
      ([], [Event.warn ("Invalid topic format: " ++ "a/b")]) :=
  claim4_amended_topic_validation [] "a/b" PayloadModel.metaInvalid (by decide)

/-- **C1, counterexample.** The claim says the finalization re-encode
rounds and saturates at ±32767, so that a sample `≥ 1.0` encodes to
`32767` and never wraps. The code performs
`(audio * 32768).astype(np.int16)` — a C cast with no saturation — so
the sample `1.0` (reachable through the float32 fallback decode branch)
scales to `32768` and wraps around to `-32768`, not `32767`. -/
theorem claim1_counterexample :
    encodeSample 1 = -32768 ∧ encodeSample 1 ≠ 32767 := by
  have h1 : (1 : ℚ) * 32768 = ((32768 : ℤ) : ℚ) := by norm_num
  have h2 : encodeSample 1 = -32768 := by
    rw [encodeSample, h1, truncRat_intCast]
    decide
  exact ⟨h2, by rw [h2]; decide⟩

/-- **C1, amended.** The finalization re-encoding multiplies each
sample by `32768.0` and converts with truncation toward zero and
wraparound modulo `2^16` — no rounding to nearest and no saturation.
For every sample in `[-1, 1)` — which covers every signal decoded from
int16 bytes — the truncated value already lies in
`[-32768, 32767]`, so no wraparound occurs there; in particular `-1.0`
encodes to `-32768`. (A sample `≥ 1.0` instead wraps: see the
counterexample.) -/
theorem claim1_amended_encode_truncates (x : ℚ) (h1 : -1 ≤ x) (h2 : x < 1) :
    encodeSample x = truncRat (x * 32768) ∧
    -32768 ≤ encodeSample x ∧ encodeSample x ≤ 32767 := by
  have hlb : (-32768 : ℚ) ≤ x * 32768 := by linarith
  have hub : x * 32768 < 32768 := by linarith
  have htlb : -32768 ≤ truncRat (x * 32768) := by
    by_cases h : 0 ≤ x * 32768
    · rw [truncRat, if_pos h]
      exact le_trans (by norm_num) (Int.floor_nonneg.mpr h)
    · rw [truncRat, if_neg h]
      have hc : ((-32768 : ℤ) : ℚ) ≤ x * 32768 := by exact_mod_cast hlb
      calc (-32768 : ℤ) = ⌈((-32768 : ℤ) : ℚ)⌉ := (Int.ceil_intCast _).symm
        _ ≤ ⌈x * 32768⌉ := Int.ceil_le_ceil hc
  have htub : truncRat (x * 32768) ≤ 32767 := by
    by_cases h : 0 ≤ x * 32768
    · rw [truncRat, if_pos h]
      have : ⌊x * 32768⌋ < 32768 := Int.floor_lt.mpr (by exact_mod_cast hub)
      omega
    · rw [truncRat, if_neg h]
      push_neg at h
      have : ⌈x * 32768⌉ ≤ 0 := Int.ceil_le.mpr (by exact_mod_cast h.le)
      omega
  have heq : encodeSample x = truncRat (x * 32768) :=
    wrapInt16_eq_self _ htlb (by omega)
  exact ⟨heq, heq ▸ htlb, heq ▸ htub⟩

/-- Witness for C1 (amended) at the in-range sample `-1/2`. -/
theorem claim1_amended_witness :
    encodeSample (-1/2) = truncRat (-1/2 * 32768) ∧
    -32768 ≤ encodeSample (-1/2) ∧ encodeSample (-1/2) ≤ 32767 :=
  claim1_amended_encode_truncates (-1/2) (by norm_num) (by norm_num)

/-- **C10.** For every even-length byte string, decoding it as
normalized int16-LE floats (`reconstruct_signal`, int16 branch) and
re-encoding through the finalization path
`(audio * 32768).astype(np.int16).tobytes()` yields the original
bytes: the decode–encode round trip is the identity. -/
theorem claim10_decode_encode_roundtrip (bs : List Nat)
    (hb : ∀ b ∈ bs, b < 256) (hlen : 2 ∣ bs.length) :
    encode_int16le (reconstructInt16 bs) = bs :=
  encode_reconstruct_roundtrip bs hb hlen

/-- Witness for C10 on a byte string exercising positive, maximal and
minimal int16 values. -/
theorem claim10_witness :
    encode_int16le (reconstructInt16 [52, 18, 255, 127, 0, 128]) =
      [52, 18, 255, 127, 0, 128] :=
  claim10_decode_encode_roundtrip [52, 18, 255, 127, 0, 128]
    (by decide) (by decide)

/-- **C3.** In demo mode, `predict_pcg`'s label is a deterministic
function of the input audio — the code's rule is the degenerate
(constant) band: every caller reaches `_demo_pcg_prediction` with its
default `scenario='normal'`, whose branch is `"Normal"` regardless of
the audio (hence, a fortiori, a function of its mean absolute
amplitude); each branch of the rule carries a fixed probability
vector; and the all-zero (silent) input deterministically receives the
normal branch. -/
theorem claim3_demo_pcg_rule :
    (∀ (model : List ℚ → ClassOutput) (audio : List ℚ),
      (predict_pcg true model audio).1.label = "Normal") ∧
    (∀ (audio : List ℚ) (scenario : String),
      (demo_pcg_prediction audio scenario).probabilities =
        pcgBranchProbs (demo_pcg_prediction audio scenario).label) ∧
    (∀ (model : List ℚ → ClassOutput) (n : Nat),
      (predict_pcg true model (List.replicate n 0)).1.label = "Normal") := by
  refine ⟨fun model audio => rfl, ?_, fun model n => rfl⟩
  intro audio scenario
  unfold demo_pcg_prediction pcgBranchProbs
  by_cases h1 : scenarioLabel scenario = "Murmur"
  · simp [h1]
  · by_cases h2 : scenarioLabel scenario = "Artifact" <;> simp [h1, h2]

/-- **C7.** In every prediction returned by `predict_pcg`,
`predict_ecg` and `predict_murmur_severity`, over both the demo and the
model-backed branch, `demo_mode` is true exactly when `model_version`
is `"demo"`, and `model_version` is `"v1.0.0"` otherwise. -/
theorem claim7_demo_flag_consistency (d : Bool)
    (mp me : List ℚ → ClassOutput) (ms : List ℚ → SeverityOutput)
    (audio ecg : List ℚ) :
    ((predict_pcg d mp audio).2.demoMode = true ↔
      (predict_pcg d mp audio).2.modelVersion = "demo") ∧
    ((predict_pcg d mp audio).2.modelVersion =
      if d = true then "demo" else "v1.0.0") ∧
    ((predict_murmur_severity d ms audio).2.demoMode = true ↔
      (predict_murmur_severity d ms audio).2.modelVersion = "demo") ∧
    ((predict_murmur_severity d ms audio).2.modelVersion =
      if d = true then "demo" else "v1.0.0") ∧
    ((predict_ecg d me ecg).2.demoMode = true ↔
      (predict_ecg d me ecg).2.modelVersion = "demo") ∧
    ((predict_ecg d me ecg).2.modelVersion =
      if d = true then "demo" else "v1.0.0") := by
  cases d <;>
    simp [predict_pcg, predict_murmur_severity, predict_ecg, mkMeta]

/-- **C8.** Every probabilities mapping produced by the demo paths —
the PCG branches for every scenario, all six severity heads, and every
ECG variance band — has all entries in `[0, 1]` and sums to `1` within
`1e-3` (in the rational model the sums are exactly `1`). -/
theorem claim8_demo_probability_vectors (audio ecg : List ℚ)
    (scenario : String) :
    validProbs (demo_pcg_prediction audio scenario).probabilities ∧
    validProbs demo_severity_prediction.location.probabilities ∧
    validProbs demo_severity_prediction.timing.probabilities ∧
    validProbs demo_severity_prediction.shape.probabilities ∧
    validProbs demo_severity_prediction.grading.probabilities ∧
    validProbs demo_severity_prediction.pitch.probabilities ∧
    validProbs demo_severity_prediction.quality.probabilities ∧
    validProbs (demo_ecg_prediction ecg).probabilities := by
  refine ⟨?_, ?_, ?_, ?_, ?_, ?_, ?_, ?_⟩
  · by_cases h1 : scenarioLabel scenario = "Murmur"
    · norm_num [demo_pcg_prediction, h1, validProbs, List.forall_mem_cons]
    · by_cases h2 : scenarioLabel scenario = "Artifact" <;>
        norm_num [demo_pcg_prediction, h1, h2, validProbs, List.forall_mem_cons,
          (show ("Artifact" : String) ≠ "Murmur" by decide)]
  · norm_num [validProbs, demo_severity_prediction, List.forall_mem_cons]
  · norm_num [validProbs, demo_severity_prediction, List.forall_mem_cons]
  · norm_num [validProbs, demo_severity_prediction, List.forall_mem_cons]
  · norm_num [validProbs, demo_severity_prediction, List.forall_mem_cons]
  · norm_num [validProbs, demo_severity_prediction, List.forall_mem_cons]
  · norm_num [validProbs, demo_severity_prediction, List.forall_mem_cons]
  · by_cases h1 : variance ecg > 2
    · norm_num [demo_ecg_prediction, h1, validProbs, List.forall_mem_cons]
    · by_cases h2 : variance ecg > 1 <;>
        norm_num [demo_ecg_prediction, h1, h2, validProbs, List.forall_mem_cons]

/-! ## Buffer accounting (C9) -/

lemma addChunks_format (b : SessionBuffer) (data : List Nat) (k : Nat) :
    (addChunks b data k).format = b.format := by
  induction k with
  | zero => rfl
  | succ k ih => simp [addChunks, add_chunk, ih]

lemma addChunks_sampleRate (b : SessionBuffer) (data : List Nat) (k : Nat) :
    (addChunks b data k).sampleRate = b.sampleRate := by
  induction k with
  | zero => rfl
  | succ k ih => simp [addChunks, add_chunk, ih]

/-- **C9, counterexample.** The claim asserts that for any int16-format
buffer with positive sample rate, after `k` chunks of `n` bytes each
`get_duration()` is within `0.01 s` of `(k·n/2)/sr`. With odd chunks
the integer division `len(data) // 2` loses half a sample per chunk:
on a fresh 500 Hz `"int16"` buffer, 11 chunks of 1 byte leave
`total_samples = 0` and `get_duration() = 0`, while
`(11·1/2)/500 = 0.011`, which is more than `0.01` away. -/
theorem claim9_counterexample :
    containsStr c9Buf.format "int16" = true ∧
    (0 : ℚ) < c9Buf.sampleRate ∧
    (addChunks c9Buf [0] 11).totalBytes = 11 * 1 ∧
    (addChunks c9Buf [0] 11).totalSamples = 0 ∧
    ¬ (|get_duration (addChunks c9Buf [0] 11) -
        ((11 * 1 : ℚ) / 2) / c9Buf.sampleRate| ≤ 1/100) := by
  refine ⟨by decide, by decide, by decide, by decide, ?_⟩
  have h0 : get_duration (addChunks c9Buf [0] 11) = 0 := by decide
  have hs : c9Buf.sampleRate = 500 := by decide
  rw [h0, hs]
  norm_num [abs_of_nonneg]

/-- **C9, amended.** For a buffer whose format contains `"int16"` or
`"s16"` and whose sample rate is positive: `add_chunk` increments
`total_bytes` by `n` and `total_samples` by `n div 2` on each call
(integer division — a trailing odd byte is not counted); and starting
from a fresh buffer, after `k` chunks of `n` bytes each with `n` even,
`get_duration()` equals `(k·n/2)/sr` exactly (hence in particular
within `0.01 s`). For odd `n` the deviation can exceed `0.01 s`: see
the counterexample. -/
theorem claim9_amended_buffer_accounting (b : SessionBuffer)
    (data : List Nat) (k : Nat)
    (hfmt : (containsStr b.format "int16" || containsStr b.format "s16") = true)
    (hsr : 0 < b.sampleRate) (hb0 : b.totalBytes = 0)
    (hs0 : b.totalSamples = 0) :
    (add_chunk b data).totalBytes = b.totalBytes + data.length ∧
    (add_chunk b data).totalSamples = b.totalSamples + data.length / 2 ∧
    (addChunks b data k).totalBytes = k * data.length ∧
    (addChunks b data k).totalSamples = k * (data.length / 2) ∧
    (2 ∣ data.length →
      get_duration (addChunks b data k) =
        ((k * data.length : ℚ) / 2) / b.sampleRate) := by
  have hbps : bytesPerSample b.format = 2 := by
    unfold bytesPerSample
    rw [hfmt]
    rfl
  have hacc : ∀ j : Nat, (addChunks b data j).totalBytes = j * data.length ∧
      (addChunks b data j).totalSamples = j * (data.length / 2) := by
    intro j
    induction j with
    | zero => simpa [addChunks] using ⟨hb0, hs0⟩
    | succ j ih =>
      have hf : bytesPerSample (addChunks b data j).format = 2 := by
        rw [addChunks_format]; exact hbps
      simp only [addChunks, add_chunk, hf, ih.1, ih.2]
      constructor <;> ring
  refine ⟨?_, ?_, (hacc k).1, (hacc k).2, ?_⟩
  · simp [add_chunk]
  · simp [add_chunk, hbps]
  · rintro ⟨d2, hd2⟩
    have hsamp : (addChunks b data k).totalSamples = k * d2 := by
      rw [(hacc k).2, hd2, Nat.mul_div_cancel_left d2 (by norm_num)]
    unfold get_duration
    rw [hsamp, addChunks_sampleRate]
    by_cases hkm : 0 < k * d2
    · rw [if_pos ⟨hkm, hsr⟩, hd2]
      have hne : b.sampleRate ≠ 0 := ne_of_gt hsr
      push_cast
      field_simp
      ring
    · have hz : k * d2 = 0 := by omega
      rw [if_neg (by simp [hz])]
      have : (k : ℚ) * ((2 : ℚ) * d2) = 0 := by
        rcases Nat.mul_eq_zero.mp hz with h | h <;> simp [h]
      rw [hd2]
      push_cast
      rw [show (k : ℚ) * ((2 : ℚ) * (d2 : ℚ)) / 2 = (k : ℚ) * (d2 : ℚ) by ring]
      simp [show (k : ℚ) * (d2 : ℚ) = 0 by exact_mod_cast hz]

/-- Witness for C9 (amended): a fresh `pcm_s16le` buffer at 22050 Hz,
3 chunks of 4 bytes. -/
theorem claim9_amended_witness :
    (addChunks demoBuf [0, 0, 0, 0] 3).totalBytes =
      3 * ([0, 0, 0, 0] : List Nat).length ∧
    (addChunks demoBuf [0, 0, 0, 0] 3).totalSamples =
      3 * (([0, 0, 0, 0] : List Nat).length / 2) ∧
    get_duration (addChunks demoBuf [0, 0, 0, 0] 3) =
      ((3 * ([0, 0, 0, 0] : List Nat).length : ℚ) / 2) / demoBuf.sampleRate := by
  have h := claim9_amended_buffer_accounting demoBuf [0, 0, 0, 0] 3
    (by decide) (by decide) (by decide) (by decide)
  exact ⟨h.2.2.1, h.2.2.2.1, h.2.2.2.2 (by decide)⟩

end AscultiCor
